import Mathlib

/-!
Verification development for the OHIF collaboration extension.

Shallow embedding of:
* `src/server_index.js` — the socket.io collaboration server: the in-memory
  session registry (`sessions : Map<sessionId, {host, participants, lastViewport,
  lastSegState}>`), the event handlers registered inside `io.on('connection')`
  (`create-session`, `join-session`, `displaySetChange`, `segmentationEvent`,
  `requestSegmentationData`, `segmentationData`, `leave-session`, `disconnect`),
  and the reverse lookup `findSessionIdForSocket`.
* `src/unnamed/part_000` (SessionControls) — the viewer-side ("joiner")
  segmentation reconciliation: the 500 ms debounce guard on
  `segmentation_modified` events, the `pendingSegmentationRequests` set and its
  guard around `requestSegmentationData` emissions, and the
  `segmentationEvent` / `segmentationData` handlers.

JS `Map` objects are embedded as insertion-ordered association lists with the
JS semantics: `set` updates in place when the key exists and appends otherwise,
`delete` removes the entry, iteration order is insertion order.  Timestamps
(`Date.now()`) are naturals; `now - last < 500` over JS numbers coincides with
the same expression over `Nat` (truncated subtraction) for all inputs.
-/

namespace OhifCollab

/-! ### Character-list string helpers

`String.prototype.includes` and `String.prototype.replace` (first occurrence,
string pattern) from the joiner code, implemented over `List Char` by
structural recursion so that all uses reduce by `decide`. -/

/-- `leadsWith pat s` is true when the char list `s` starts with `pat`. -/
def leadsWith : List Char → List Char → Bool
  | [], _ => true
  | _ :: _, [] => false
  | a :: as, b :: bs => a = b && leadsWith as bs

/-- `occursIn pat s` is true when `pat` occurs contiguously inside `s`
(JS `s.includes(pat)`). -/
def occursIn (pat : List Char) : List Char → Bool
  | [] => leadsWith pat []
  | c :: rest => leadsWith pat (c :: rest) || occursIn pat rest

/-- JS `s.includes(pat)`. -/
def strIncludes (s pat : String) : Bool :=
  occursIn pat.data s.data

/-- Delete the first occurrence of `pat` from `s` (helper for `dropFirstStr`). -/
def dropFirstOccur (pat : List Char) : List Char → List Char
  | [] => []
  | c :: rest =>
    if leadsWith pat (c :: rest) then List.drop pat.length (c :: rest)
    else c :: dropFirstOccur pat rest

/-- JS `s.replace(pat, '')` with a string pattern: removes the first
occurrence of `pat` (used for `eventName.replace('event::', '')`). -/
def dropFirstStr (s pat : String) : String :=
  ⟨dropFirstOccur pat.data s.data⟩

/-! ### JS `Map` as an insertion-ordered association list -/

/-- JS `m.has(k)`. -/
def mapHas (m : List (String × β)) (k : String) : Bool :=
  m.any (fun p => p.1 = k)

/-- JS `m.get(k)` (first entry with key `k`, in insertion order). -/
def mapGet (m : List (String × β)) (k : String) : Option β :=
  (m.find? (fun p => p.1 = k)).map (·.2)

/-- JS `m.set(k, v)`: a `Map` keeps keys unique, so `set` updates the entry
in place when the key exists (keeping its position) and appends otherwise. -/
def mapSet : List (String × β) → String → β → List (String × β)
  | [], k, v => [(k, v)]
  | p :: rest, k, v => if p.1 = k then (k, v) :: rest else p :: mapSet rest k v

/-- JS `m.delete(k)`: removes the entry with key `k` when present. -/
def mapDel : List (String × β) → String → List (String × β)
  | [], _ => []
  | p :: rest, k => if p.1 = k then rest else p :: mapDel rest k

/-! ### Server data model (`src/server_index.js`) -/

/-- A socket id (`socket.id`). -/
abbrev ConnId := String

/-- Payload of a relayed `segmentationEvent`: `data.evt`.  The server only
inspects `evt.segmentationId` (a truthiness check); the rest of the object is
opaque to it and kept as a string. -/
structure SegEvtPayload where
  segmentationId : Option String
  rest : String
  deriving DecidableEq, Repr

/-- A value of the server's `lastSegState` cache: `create-session` seeds
`{createdBy: username}` and `segmentationEvent` stores `data.evt`. -/
inductive SegCache where
  | createdBy (username : String)
  | evt (e : SegEvtPayload)
  deriving DecidableEq, Repr

/-- One entry of the server's `sessions` map:
`{ host, participants: Map<socketId,name>, lastViewport, lastSegState }`. -/
structure Session where
  host : ConnId
  participants : List (ConnId × String)
  lastViewport : Option String
  lastSegState : List (String × SegCache)
  deriving DecidableEq, Repr

/-- The whole server state: the `sessions` registry. -/
structure ServerState where
  sessions : List (String × Session)
  deriving DecidableEq, Repr

/-- The empty registry the server starts with. -/
def initialServer : ServerState := ⟨[]⟩

/-- Addressee of an outbound emission: `io.to(room)`, `socket.to(room)`
(room minus sender), or `io.to(socketId)` (one connection). -/
inductive Target where
  | room (sid : String)
  | roomExceptSender (sid : String) (sender : ConnId)
  | conn (c : ConnId)
  deriving DecidableEq, Repr

/-- Body of an outbound server emission. -/
inductive EmitBody where
  | updateUsers (users : List (ConnId × String))
  | participantUpdate (count : Nat)
  | displaySetChange (d : String)
  | segmentationEvent (eventName : String) (evt : SegEvtPayload)
  | requestSegData (segmentationId : String)
  | segData (segmentationId : String) (blob : String)
  | promotedToHost
  deriving DecidableEq, Repr

/-- An outbound server emission. -/
structure Emit where
  target : Target
  body : EmitBody
  deriving DecidableEq, Repr

/-- Acknowledgement values passed to the `cb` callbacks. -/
inductive Ack where
  | createOk (sessionId : String)
  | joinOk (viewport : Option String) (segmentations : List (String × SegCache))
      (participants : Nat)
  | joinErr (message : String)
  | leaveOk
  | leaveErr (message : String)
  deriving DecidableEq, Repr

/-- JS `x || dflt` for the strings `username || 'host'` / `username || 'guest'`
(the empty string is the only falsy string reaching these sites). -/
def orDefault (s dflt : String) : String :=
  if s = "" then dflt else s

/-- JS truthiness of the optional `segmentationId` field (`null`/`''` falsy). -/
def optTruthy : Option String → Bool
  | none => false
  | some s => s ≠ ""

/-- `findSessionIdForSocket(socketId)`: first session (registry insertion
order) whose participants map has the socket. -/
def findSessionIdForSocket (s : ServerState) (c : ConnId) : Option String :=
  (s.sessions.find? (fun p => mapHas p.2.participants c)).map (·.1)

/-- `broadcastUsers(sessionId)`: `update-users` plus `participant-update`
to the room, or nothing when the session does not exist. -/
def broadcastUsers (s : ServerState) (sid : String) : List Emit :=
  match mapGet s.sessions sid with
  | none => []
  | some sess =>
    [⟨Target.room sid, EmitBody.updateUsers sess.participants⟩,
     ⟨Target.room sid, EmitBody.participantUpdate sess.participants.length⟩]

/-- `socket.on('create-session', ...)`: unconditionally overwrites the
registry entry with a fresh session (host and sole participant the caller),
optionally seeds `lastSegState`, acks success, broadcasts users. -/
def handleCreate (s : ServerState) (sender : ConnId) (sid username : String)
    (segmentationId : Option String) : ServerState × List Emit × Option Ack :=
  let baseSeg : List (String × SegCache) :=
    match segmentationId with
    | some v => if v ≠ "" then [(v, SegCache.createdBy (orDefault username "host"))] else []
    | none => []
  let sess : Session :=
    { host := sender
      participants := [(sender, orDefault username "host")]
      lastViewport := none
      lastSegState := baseSeg }
  let s' : ServerState := ⟨mapSet s.sessions sid sess⟩
  (s', broadcastUsers s' sid, some (Ack.createOk sid))

/-- `socket.on('join-session', ...)`: error ack when the session id is
unknown (no state change, no emission); otherwise adds the participant,
acks the snapshot, broadcasts users. -/
def handleJoin (s : ServerState) (sender : ConnId) (sid username : String) :
    ServerState × List Emit × Option Ack :=
  match mapGet s.sessions sid with
  | none => (s, [], some (Ack.joinErr "Session not found"))
  | some sess =>
    let sess' := { sess with
      participants := mapSet sess.participants sender (orDefault username "guest") }
    let s' : ServerState := ⟨mapSet s.sessions sid sess'⟩
    (s', broadcastUsers s' sid,
     some (Ack.joinOk sess.lastViewport sess.lastSegState sess'.participants.length))

/-- `socket.on('leave-session', ...)`: error ack when the session id is
unknown; otherwise deletes the participant, broadcasts users, acks success.
The session itself is never removed here, even when it becomes empty. -/
def handleLeave (s : ServerState) (sender : ConnId) (sid : String) :
    ServerState × List Emit × Option Ack :=
  match mapGet s.sessions sid with
  | none => (s, [], some (Ack.leaveErr "Session not found"))
  | some sess =>
    let sess' := { sess with participants := mapDel sess.participants sender }
    let s' : ServerState := ⟨mapSet s.sessions sid sess'⟩
    (s', broadcastUsers s' sid, some Ack.leaveOk)

/-- `socket.on('displaySetChange', ...)`: look up the sender's session,
cache the payload as `lastViewport`, relay to the room minus the sender. -/
def handleDisplaySetChange (s : ServerState) (sender : ConnId) (d : String) :
    ServerState × List Emit × Option Ack :=
  match findSessionIdForSocket s sender with
  | none => (s, [], none)
  | some sid =>
    match mapGet s.sessions sid with
    | none => (s, [], none)
    | some sess =>
      let s' : ServerState := ⟨mapSet s.sessions sid { sess with lastViewport := some d }⟩
      (s', [⟨Target.roomExceptSender sid sender, EmitBody.displaySetChange d⟩], none)

/-- `socket.on('segmentationEvent', ...)`: look up the sender's session,
update the `lastSegState` cache when `data.evt.segmentationId` is truthy
(delete on `'SEGMENTATION_REMOVED'`, store otherwise), relay to the room
minus the sender. -/
def handleSegmentationEvent (s : ServerState) (sender : ConnId)
    (eventName : String) (evt : SegEvtPayload) : ServerState × List Emit × Option Ack :=
  match findSessionIdForSocket s sender with
  | none => (s, [], none)
  | some sid =>
    match mapGet s.sessions sid with
    | none => (s, [], none)
    | some sess =>
      let sess' :=
        match evt.segmentationId with
        | some v =>
          if v ≠ "" then
            if eventName = "SEGMENTATION_REMOVED" then
              { sess with lastSegState := mapDel sess.lastSegState v }
            else
              { sess with lastSegState := mapSet sess.lastSegState v (SegCache.evt evt) }
          else sess
        | none => sess
      let s' : ServerState := ⟨mapSet s.sessions sid sess'⟩
      (s', [⟨Target.roomExceptSender sid sender, EmitBody.segmentationEvent eventName evt⟩],
       none)

/-- `socket.on('requestSegmentationData', ...)`: forward the request to the
session's host connection. -/
def handleRequestSegData (s : ServerState) (sender : ConnId) (segId : String) :
    ServerState × List Emit × Option Ack :=
  match findSessionIdForSocket s sender with
  | none => (s, [], none)
  | some sid =>
    match mapGet s.sessions sid with
    | none => (s, [], none)
    | some sess =>
      if sess.host ≠ "" then
        (s, [⟨Target.conn sess.host, EmitBody.requestSegData segId⟩], none)
      else (s, [], none)

/-- `socket.on('segmentationData', ...)`: relay to the room minus the sender. -/
def handleSegData (s : ServerState) (sender : ConnId) (segId blob : String) :
    ServerState × List Emit × Option Ack :=
  match findSessionIdForSocket s sender with
  | none => (s, [], none)
  | some sid =>
    (s, [⟨Target.roomExceptSender sid sender, EmitBody.segData segId blob⟩], none)

/-- One iteration of the `for (const [sessionId, sess] of sessions.entries())`
loop in `socket.on('disconnect', ...)`: skip sessions not containing the
socket; otherwise delete the participant, broadcast users, and — when the
socket was host — promote the first remaining participant (directed
`promoted-to-host`) or delete the now-empty session. -/
def disconnectOne (sender : ConnId) (acc : ServerState × List Emit)
    (entry : String × Session) : ServerState × List Emit :=
  let (st, ems) := acc
  if mapHas entry.2.participants sender then
    let wasHost := entry.2.host = sender
    let parts' := mapDel entry.2.participants sender
    let sess' := { entry.2 with participants := parts' }
    let st1 : ServerState := ⟨mapSet st.sessions entry.1 sess'⟩
    let ems1 := ems ++ broadcastUsers st1 entry.1
    if wasHost then
      match parts'.head? with
      | some (next, _) =>
        (⟨mapSet st1.sessions entry.1 { sess' with host := next }⟩,
         ems1 ++ [⟨Target.conn next, EmitBody.promotedToHost⟩])
      | none => (⟨mapDel st1.sessions entry.1⟩, ems1)
    else (st1, ems1)
  else acc

/-- `socket.on('disconnect', ...)`: the loop over all registry entries. -/
def disconnectStep (s : ServerState) (sender : ConnId) : ServerState × List Emit :=
  s.sessions.foldl (disconnectOne sender) (s, [])

/-- Payload of an inbound event, one constructor per payload shape used by
the handlers registered in `io.on('connection')`, plus the payload shapes of
the client-emitted events the server does not register a handler for
(`chat-message` from `MathPanel.sendMessage`, `rejoin-session` from
`MathPanel.onConnect`, `update-segmentation` from the `useCollabSocket`
hook). -/
inductive RawPayload where
  | createArgs (sessionId username : String) (segmentationId : Option String)
  | joinArgs (sessionId username : String)
  | leaveArgs (sessionId : String)
  | displayData (d : String)
  | segEventData (eventName : String) (evt : SegEvtPayload)
  | segRequestData (segmentationId : String)
  | segDataPayload (segmentationId : String) (blob : String)
  | chatArgs (userId userName text : String) (timestamp : Nat)
  | rejoinArgs (sessionId username : String)
  | unitArg
  deriving DecidableEq, Repr

/-- Dispatch of one inbound event by event name, mirroring the `socket.on`
registrations inside `io.on('connection')`.  socket.io silently ignores an
event name with no registered handler, so every unmatched (name, payload)
pair leaves the state unchanged with no emission and no acknowledgement. -/
def serverHandle (s : ServerState) (sender : ConnId) (name : String)
    (p : RawPayload) : ServerState × List Emit × Option Ack :=
  match name, p with
  | "create-session", RawPayload.createArgs sid u segId => handleCreate s sender sid u segId
  | "join-session", RawPayload.joinArgs sid u => handleJoin s sender sid u
  | "displaySetChange", RawPayload.displayData d => handleDisplaySetChange s sender d
  | "segmentationEvent", RawPayload.segEventData en evt =>
    handleSegmentationEvent s sender en evt
  | "requestSegmentationData", RawPayload.segRequestData segId =>
    handleRequestSegData s sender segId
  | "segmentationData", RawPayload.segDataPayload segId blob =>
    handleSegData s sender segId blob
  | "leave-session", RawPayload.leaveArgs sid => handleLeave s sender sid
  | "disconnect", RawPayload.unitArg =>
    ((disconnectStep s sender).1, (disconnectStep s sender).2, none)
  | _, _ => (s, [], none)

/-- One inbound server event: the sending connection, the event name, and
the payload. -/
structure InEvent where
  sender : ConnId
  name : String
  payload : RawPayload
  deriving DecidableEq, Repr

/-- State transition of one inbound event (ignoring emissions and acks). -/
def serverStepState (s : ServerState) (e : InEvent) : ServerState :=
  (serverHandle s e.sender e.name e.payload).1

/-- State after processing a list of inbound events from the empty registry. -/
def serverRun (evs : List InEvent) : ServerState :=
  evs.foldl serverStepState initialServer

/-! ### Viewer ("joiner") model (`src/unnamed/part_000`, SessionControls)

The joiner `useEffect` subscribes `onSegmentationEvent` / `onSegmentationData`
once (its dependency array is `[servicesManager]`), so the handler closures
capture the value the `pendingSegmentationRequests` React state had when the
effect ran — the initial empty set.  Functional updates
(`setPendingSegmentationRequests(prev => ...)`) produce fresh `Set` objects for
later renders; the installed handlers are never re-created, so their captured
set is never one of those.  The embedding therefore carries two fields:
`pendingSnapshot`, the set the handler closures read (constant after mount),
and `pendingLive`, the actual React state the functional updates write.

`ensureViewportReady` and `ensureVolumeLoaded` are bounded-retry guards on
external viewer readiness; the claims below concern the debounce and the
pending-request guard, so the external viewer is modelled as ready and its
volume as loaded (the guards run their callback immediately).
`segmentationService.getSegmentation(id)` is truthy exactly when `id` is in
`localSegs`; `createLabelmapForDisplaySet` / `importSegmentation` register the
id there, `remove` deletes it. -/

/-- Value of the external `segmentationService.EVENTS.SEGMENTATION_ADDED`
constant (the joiner strips a leading `event::` tag via
`eventName.replace('event::', '')` before comparing against
`'segmentation_added'` etc.). -/
def SEGMENTATION_ADDED : String := "event::segmentation_added"

/-- Value of the external `EVENTS.SEGMENTATION_MODIFIED` constant. -/
def SEGMENTATION_MODIFIED : String := "event::segmentation_modified"

/-- Value of the external `EVENTS.SEGMENTATION_DATA_MODIFIED` constant. -/
def SEGMENTATION_DATA_MODIFIED : String := "event::segmentation_data_modified"

/-- Value of the external `EVENTS.SEGMENTATION_REMOVED` constant. -/
def SEGMENTATION_REMOVED_NAME : String := "event::segmentation_removed"

/-- JS `Set.prototype.add` (insertion order, no duplicates). -/
def setAdd (l : List String) (x : String) : List String :=
  if x ∈ l then l else l ++ [x]

/-- JS `Set.prototype.delete`. -/
def setDel (l : List String) (x : String) : List String :=
  l.filter (fun y => ¬ y = x)

/-- The `debounce` window: `const DEBOUNCE_MS = 500`. -/
def DEBOUNCE_MS : Nat := 500

/-- Joiner-side state. `lastSegmentationEvent` is the single shared debounce
timestamp (`let lastSegmentationEvent = 0`); `pendingSnapshot` is the
`pendingSegmentationRequests` value captured by the installed handler
closures; `pendingLive` is the current React state; `localSegs` is the set of
segmentation ids registered with the local `segmentationService`. -/
structure ViewerState where
  lastSegmentationEvent : Nat
  pendingSnapshot : List String
  pendingLive : List String
  localSegs : List String
  deriving DecidableEq, Repr

/-- Joiner state right after the effect mounts: debounce timestamp 0, both
pending views empty (the handlers captured the initial `new Set()`), and the
local segmentation ids already present in the viewer. -/
def initialViewer (segs : List String) : ViewerState :=
  { lastSegmentationEvent := 0
    pendingSnapshot := []
    pendingLive := []
    localSegs := segs }

/-- Inbound message to the joiner: a relayed `segmentationEvent`
(`{eventName, evt}` with the arrival time of `Date.now()`), or a
`segmentationData` response (`hasData`: the `data` field is non-null;
`importOk`: the external `importSegmentation` call succeeds). -/
inductive ViewerIn where
  | segEvent (eventName segmentationId : String) (now : Nat)
  | segData (segmentationId : String) (hasData importOk : Bool)
  deriving DecidableEq, Repr

/-- Observable joiner actions. `requestSegmentationData` is the outbound
socket emission; `appliedAdded` / `appliedModified` / `removedLocal` record
that the corresponding switch branch ran against the local viewer;
`debounced` records the early return of the debounce guard. -/
inductive ViewerOut where
  | requestSegmentationData (segmentationId : String)
  | appliedAdded (segmentationId : String) (now : Nat)
  | appliedModified (segmentationId : String) (now : Nat)
  | removedLocal (segmentationId : String)
  | debounced (segmentationId : String) (now : Nat)
  deriving DecidableEq, Repr

/-- One `onSegmentationEvent` / `onSegmentationData` handler invocation.
`onSegmentationEvent`: the debounce guard discards a `segmentation_modified`
event arriving within `DEBOUNCE_MS` of `lastSegmentationEvent`; every other
event updates the timestamp and is dispatched on
`eventName.replace('event::','')`.  The `requestSegmentationData` guard tests
`pendingSegmentationRequests.has(id)` on the captured snapshot while the
`setPendingSegmentationRequests` functional update writes `pendingLive`.
`onSegmentationData`: clears the pending flag (live state), replaces any
existing local segmentation wholesale, and on missing data or failed import
falls back to an empty labelmap plus a guarded re-request. -/
def viewerStep (s : ViewerState) (e : ViewerIn) : ViewerState × List ViewerOut :=
  match e with
  | ViewerIn.segEvent eventName segId now =>
    if strIncludes eventName "segmentation_modified" = true ∧
        now - s.lastSegmentationEvent < DEBOUNCE_MS then
      (s, [ViewerOut.debounced segId now])
    else
      let s1 := { s with lastSegmentationEvent := now }
      let actual := dropFirstStr eventName "event::"
      if actual = "segmentation_added" then
        let s2 := { s1 with localSegs := setAdd s1.localSegs segId }
        if segId ∈ s2.pendingSnapshot then
          (s2, [ViewerOut.appliedAdded segId now])
        else
          ({ s2 with pendingLive := setAdd s2.pendingLive segId },
           [ViewerOut.appliedAdded segId now, ViewerOut.requestSegmentationData segId])
      else if actual = "segmentation_modified" then
        if segId ∈ s1.localSegs then
          (s1, [ViewerOut.appliedModified segId now])
        else if segId ∈ s1.pendingSnapshot then
          (s1, [])
        else
          ({ s1 with pendingLive := setAdd s1.pendingLive segId },
           [ViewerOut.requestSegmentationData segId])
      else if actual = "segmentation_data_modified" then
        if segId ∈ s1.pendingSnapshot then
          (s1, [])
        else
          ({ s1 with pendingLive := setAdd s1.pendingLive segId },
           [ViewerOut.requestSegmentationData segId])
      else if actual = "segmentation_removed" then
        ({ s1 with
            localSegs := setDel s1.localSegs segId
            pendingLive := setDel s1.pendingLive segId },
         [ViewerOut.removedLocal segId])
      else (s1, [])
  | ViewerIn.segData segId hasData importOk =>
    let s1 := { s with pendingLive := setDel s.pendingLive segId }
    let s2 := { s1 with localSegs := setAdd (setDel s1.localSegs segId) segId }
    if hasData = true ∧ importOk = true then (s2, [])
    else if segId ∈ s2.pendingSnapshot then (s2, [])
    else
      ({ s2 with pendingLive := setAdd s2.pendingLive segId },
       [ViewerOut.requestSegmentationData segId])

/-- Run the joiner over a list of inbound messages, accumulating outputs. -/
def viewerRunFrom (s : ViewerState) (es : List ViewerIn) :
    ViewerState × List ViewerOut :=
  es.foldl (fun acc e =>
    let r := viewerStep acc.1 e
    (r.1, acc.2 ++ r.2)) (s, [])

/-- Recognize an outbound `requestSegmentationData` emission. -/
def isRequestOut : ViewerOut → Bool
  | ViewerOut.requestSegmentationData _ => true
  | _ => false

/-- Recognize an applied `segmentation_modified` update. -/
def isAppliedModified : ViewerOut → Bool
  | ViewerOut.appliedModified _ _ => true
  | _ => false

/-- Recognize a directed `promoted-to-host` emission. -/
def isPromoted (e : Emit) : Bool :=
  match e.body with
  | EmitBody.promotedToHost => true
  | _ => false

/-- Event names with a `socket.on` registration inside `io.on('connection')`
in `src/server_index.js` — the complete list of inbound events the server
reacts to.  Client code also emits `chat-message` (`MathPanel.sendMessage`),
`rejoin-session` (`MathPanel` `onConnect`) and `update-segmentation`
(`useCollabSocket`), none of which appear here. -/
def serverRegisteredEvents : List String :=
  ["create-session", "join-session", "displaySetChange", "segmentationEvent",
   "requestSegmentationData", "segmentationData", "leave-session", "disconnect"]

/-- Host membership: the session's `host` pointer is a key of its
`participants` map. -/
def hostMember (sess : Session) : Prop :=
  mapHas sess.participants sess.host = true

/-- The registry-wide host invariant of the specification. -/
def hostInvariant (s : ServerState) : Prop :=
  ∀ p ∈ s.sessions, hostMember p.2

/-! ### Association-list lemmas -/

theorem mapHas_ne_nil {β : Type} {m : List (String × β)} {k : String}
    (h : mapHas m k = true) : m ≠ [] := by
  intro he
  subst he
  simp [mapHas] at h

theorem mapGet_cons_pos {β : Type} {p : String × β} {rest : List (String × β)}
    {k : String} (hp : p.1 = k) : mapGet (p :: rest) k = some p.2 := by
  simp only [mapGet]
  rw [List.find?_cons_of_pos _ (by simpa using hp)]
  rfl

theorem mapGet_cons_neg {β : Type} {p : String × β} {rest : List (String × β)}
    {k : String} (hp : ¬ p.1 = k) : mapGet (p :: rest) k = mapGet rest k := by
  simp only [mapGet]
  rw [List.find?_cons_of_neg _ (by simpa using hp)]

theorem mapGet_mem {β : Type} {m : List (String × β)} {k : String} {v : β}
    (h : mapGet m k = some v) : (k, v) ∈ m := by
  induction m with
  | nil => simp [mapGet] at h
  | cons p rest ih =>
    by_cases hp : p.1 = k
    · rw [mapGet_cons_pos hp] at h
      simp at h
      have he : p = (k, v) := by
        cases p with
        | mk a b => simp at hp h ⊢; exact ⟨hp, h⟩
      rw [← he]
      exact List.mem_cons_self _ _
    · rw [mapGet_cons_neg hp] at h
      exact List.mem_cons_of_mem _ (ih h)

theorem mem_mapSet {β : Type} {m : List (String × β)} {k : String} {v : β}
    {q : String × β} (h : q ∈ mapSet m k v) : q ∈ m ∨ q = (k, v) := by
  induction m with
  | nil => simp [mapSet] at h; right; exact h
  | cons p rest ih =>
    by_cases hp : p.1 = k
    · rw [mapSet, if_pos hp] at h
      rcases List.mem_cons.mp h with h1 | h1
      · right; exact h1
      · left; exact List.mem_cons_of_mem _ h1
    · rw [mapSet, if_neg hp] at h
      rcases List.mem_cons.mp h with h1 | h1
      · left; exact h1 ▸ List.mem_cons_self _ _
      · rcases ih h1 with h2 | h2
        · left; exact List.mem_cons_of_mem _ h2
        · right; exact h2

theorem mem_mapDel {β : Type} {m : List (String × β)} {k : String}
    {q : String × β} (h : q ∈ mapDel m k) : q ∈ m := by
  induction m with
  | nil => simp [mapDel] at h
  | cons p rest ih =>
    by_cases hp : p.1 = k
    · rw [mapDel, if_pos hp] at h
      exact List.mem_cons_of_mem _ h
    · rw [mapDel, if_neg hp] at h
      rcases List.mem_cons.mp h with h1 | h1
      · exact h1 ▸ List.mem_cons_self _ _
      · exact List.mem_cons_of_mem _ (ih h1)

theorem mapHas_mapSet_self {β : Type} (m : List (String × β)) (k : String) (v : β) :
    mapHas (mapSet m k v) k = true := by
  induction m with
  | nil => simp [mapSet, mapHas]
  | cons p rest ih =>
    by_cases hp : p.1 = k
    · simp [mapSet, hp, mapHas]
    · simp only [mapSet, if_neg hp, mapHas, List.any_cons]
      simp only [mapHas] at ih
      simp [ih]

theorem mapHas_mapSet_of {β : Type} {m : List (String × β)} {a k : String} {v : β}
    (h : mapHas m a = true) : mapHas (mapSet m k v) a = true := by
  induction m with
  | nil => simp [mapHas] at h
  | cons p rest ih =>
    by_cases hp : p.1 = k
    · simp only [mapHas, List.any_cons, Bool.or_eq_true] at h
      rcases h with h1 | h1
      · have : a = k := by
          have hpa : p.1 = a := by simpa using h1
          rw [← hpa, hp]
        rw [this]
        exact mapHas_mapSet_self _ _ _
      · simp [mapSet, hp, mapHas, h1]
    · simp only [mapHas, List.any_cons, Bool.or_eq_true] at h
      rcases h with h1 | h1
      · simp [mapSet, if_neg hp, mapHas, List.any_cons, h1]
      · simp only [mapSet, if_neg hp, mapHas, List.any_cons, Bool.or_eq_true]
        right
        simpa [mapHas] using ih (by simpa [mapHas] using h1)

theorem mapHas_mapDel_ne {β : Type} {m : List (String × β)} {a k : String}
    (hak : a ≠ k) : mapHas (mapDel m k) a = mapHas m a := by
  induction m with
  | nil => rfl
  | cons p rest ih =>
    by_cases hp : p.1 = k
    · have hpa : ¬ (p.1 = a) := fun he => hak (by rw [← he, hp])
      simp [mapDel, if_pos hp, mapHas, List.any_cons, hpa]
    · simp only [mapDel, if_neg hp, mapHas, List.any_cons]
      simp only [mapHas] at ih
      rw [ih]

theorem mapGet_mapSet_self {β : Type} (m : List (String × β)) (k : String) (v : β) :
    mapGet (mapSet m k v) k = some v := by
  induction m with
  | nil => rw [mapSet, mapGet_cons_pos rfl]
  | cons p rest ih =>
    by_cases hp : p.1 = k
    · rw [mapSet, if_pos hp, mapGet_cons_pos rfl]
    · rw [mapSet, if_neg hp, mapGet_cons_neg hp]
      exact ih

theorem mapGet_mapSet_ne {β : Type} {m : List (String × β)} {a k : String} (v : β)
    (hak : a ≠ k) : mapGet (mapSet m k v) a = mapGet m a := by
  have hka : ¬ (((k, v) : String × β).1 = a) := fun he => hak he.symm
  induction m with
  | nil => rw [mapSet, mapGet_cons_neg hka]
  | cons p rest ih =>
    by_cases hp : p.1 = k
    · have hpa : ¬ (p.1 = a) := fun he => hak (by rw [← he, hp])
      rw [mapSet, if_pos hp, mapGet_cons_neg hka, mapGet_cons_neg hpa]
    · by_cases hpa : p.1 = a
      · rw [mapSet, if_neg hp, mapGet_cons_pos hpa, mapGet_cons_pos hpa]
      · rw [mapSet, if_neg hp, mapGet_cons_neg hpa, mapGet_cons_neg hpa]
        exact ih

theorem mapGet_none_of_keys {β : Type} {m : List (String × β)} {k : String}
    (h : ∀ q ∈ m, ¬ q.1 = k) : mapGet m k = none := by
  induction m with
  | nil => rfl
  | cons p rest ih =>
    rw [mapGet_cons_neg (h p (List.mem_cons_self _ _))]
    exact ih (fun q hq => h q (List.mem_cons_of_mem _ hq))

theorem mapGet_append_keys {β : Type} {pre rest : List (String × β)} {k : String}
    (h : ∀ q ∈ pre, ¬ q.1 = k) : mapGet (pre ++ rest) k = mapGet rest k := by
  induction pre with
  | nil => rfl
  | cons p tl ih =>
    rw [List.cons_append, mapGet_cons_neg (h p (List.mem_cons_self _ _))]
    exact ih (fun q hq => h q (List.mem_cons_of_mem _ hq))

theorem mapSet_decomp {β : Type} {pre post : List (String × β)} {k : String}
    (x v : β) (h : ∀ q ∈ pre, ¬ q.1 = k) :
    mapSet (pre ++ (k, x) :: post) k v = pre ++ (k, v) :: post := by
  induction pre with
  | nil => simp [mapSet]
  | cons p tl ih =>
    have hp := h p (List.mem_cons_self _ _)
    simp only [List.cons_append, mapSet, if_neg hp]
    exact congrArg (List.cons p) (ih (fun q hq => h q (List.mem_cons_of_mem _ hq)))

theorem mapDel_decomp {β : Type} {pre post : List (String × β)} {k : String}
    (x : β) (h : ∀ q ∈ pre, ¬ q.1 = k) :
    mapDel (pre ++ (k, x) :: post) k = pre ++ post := by
  induction pre with
  | nil => simp [mapDel]
  | cons p tl ih =>
    have hp := h p (List.mem_cons_self _ _)
    simp only [List.cons_append, mapDel, if_neg hp]
    exact congrArg (List.cons p) (ih (fun q hq => h q (List.mem_cons_of_mem _ hq)))

theorem mapHas_head {β : Type} {m : List (String × β)} {p : String × β}
    (h : m.head? = some p) : mapHas m p.1 = true := by
  cases m with
  | nil => simp at h
  | cons q rest =>
    simp at h
    subst h
    simp [mapHas]

/-! ### Double-update collapse lemmas -/

theorem mapSet_mapSet {β : Type} (m : List (String × β)) (k : String) (v w : β) :
    mapSet (mapSet m k v) k w = mapSet m k w := by
  induction m with
  | nil => simp [mapSet]
  | cons p rest ih =>
    by_cases hp : p.1 = k
    · simp [mapSet, hp]
    · rw [mapSet, if_neg hp, mapSet, if_neg hp, mapSet, if_neg hp, ih]

theorem mapDel_mapSet {β : Type} (m : List (String × β)) (k : String) (v : β) :
    mapDel (mapSet m k v) k = mapDel m k := by
  induction m with
  | nil => simp [mapSet, mapDel]
  | cons p rest ih =>
    by_cases hp : p.1 = k
    · simp [mapSet, mapDel, hp]
    · rw [mapSet, if_neg hp, mapDel, if_neg hp, mapDel, if_neg hp, ih]

/-! ### Disconnect-loop lemmas -/

theorem disconnectOne_skip (c : ConnId) (acc : ServerState × List Emit)
    (entry : String × Session) (h : mapHas entry.2.participants c = false) :
    disconnectOne c acc entry = acc := by
  cases acc
  simp [disconnectOne, h]

theorem foldl_disconnectOne_skip (c : ConnId) :
    ∀ (l : List (String × Session)) (acc : ServerState × List Emit),
      (∀ e ∈ l, mapHas e.2.participants c = false) →
      l.foldl (disconnectOne c) acc = acc := by
  intro l
  induction l with
  | nil => intro acc _; rfl
  | cons e tl ih =>
    intro acc h
    rw [List.foldl_cons, disconnectOne_skip c acc e (h e (List.mem_cons_self _ _))]
    exact ih acc (fun q hq => h q (List.mem_cons_of_mem _ hq))

theorem hostInvariant_disconnectOne {c : ConnId} {st : ServerState} {ems : List Emit}
    {entry : String × Session} (hacc : hostInvariant st) (hgood : hostMember entry.2) :
    hostInvariant (disconnectOne c (st, ems) entry).1 := by
  dsimp only [disconnectOne]
  by_cases hmem : mapHas entry.2.participants c = true
  · rw [if_pos hmem]
    by_cases hhost : entry.2.host = c
    · rw [if_pos hhost]
      cases hh : (mapDel entry.2.participants c).head? with
      | some q =>
        dsimp only
        intro p hp
        rw [mapSet_mapSet] at hp
        rcases mem_mapSet hp with hp1 | hp1
        · exact hacc p hp1
        · rw [hp1]
          exact mapHas_head hh
      | none =>
        dsimp only
        intro p hp
        rw [mapDel_mapSet] at hp
        exact hacc p (mem_mapDel hp)
    · rw [if_neg hhost]
      intro p hp
      rcases mem_mapSet hp with hp1 | hp1
      · exact hacc p hp1
      · rw [hp1]
        unfold hostMember at hgood ⊢
        dsimp only
        rw [mapHas_mapDel_ne hhost]
        exact hgood
  · rw [if_neg hmem]
    exact hacc

theorem hostInvariant_foldl_disc {c : ConnId} :
    ∀ (l : List (String × Session)) (acc : ServerState × List Emit),
      hostInvariant acc.1 → (∀ e ∈ l, hostMember e.2) →
      hostInvariant (l.foldl (disconnectOne c) acc).1 := by
  intro l
  induction l with
  | nil => intro acc hacc _; exact hacc
  | cons e tl ih =>
    intro acc hacc h
    rw [List.foldl_cons]
    have step : hostInvariant (disconnectOne c acc e).1 := by
      cases acc with
      | mk st ems => exact hostInvariant_disconnectOne hacc (h e (List.mem_cons_self _ _))
    exact ih _ step (fun q hq => h q (List.mem_cons_of_mem _ hq))

theorem hostInvariant_disconnectStep {s : ServerState} {c : ConnId}
    (hs : hostInvariant s) : hostInvariant (disconnectStep s c).1 :=
  hostInvariant_foldl_disc s.sessions (s, []) hs (fun e he => hs e he)

/-! ### Host-invariant preservation per handler -/

theorem hostInvariant_handleCreate {s : ServerState} {c : ConnId}
    {sid u : String} {segId : Option String} (hs : hostInvariant s) :
    hostInvariant (handleCreate s c sid u segId).1 := by
  intro p hp
  dsimp only [handleCreate] at hp
  rcases mem_mapSet hp with hp1 | hp1
  · exact hs p hp1
  · rw [hp1]
    unfold hostMember
    simp [mapHas]

theorem hostInvariant_handleJoin {s : ServerState} {c : ConnId}
    {sid u : String} (hs : hostInvariant s) :
    hostInvariant (handleJoin s c sid u).1 := by
  unfold handleJoin
  cases hget : mapGet s.sessions sid with
  | none => exact hs
  | some sess =>
    dsimp only
    intro p hp
    rcases mem_mapSet hp with hp1 | hp1
    · exact hs p hp1
    · rw [hp1]
      have hgood := hs (sid, sess) (mapGet_mem hget)
      unfold hostMember at hgood ⊢
      dsimp only
      exact mapHas_mapSet_of hgood

theorem hostInvariant_handleDisplaySetChange {s : ServerState} {c : ConnId}
    {d : String} (hs : hostInvariant s) :
    hostInvariant (handleDisplaySetChange s c d).1 := by
  unfold handleDisplaySetChange
  cases hfind : findSessionIdForSocket s c with
  | none => exact hs
  | some sid =>
    dsimp only
    cases hget : mapGet s.sessions sid with
    | none => exact hs
    | some sess =>
      dsimp only
      intro p hp
      rcases mem_mapSet hp with hp1 | hp1
      · exact hs p hp1
      · rw [hp1]
        exact hs (sid, sess) (mapGet_mem hget)

theorem hostInvariant_handleSegEvent {s : ServerState} {c : ConnId}
    {en : String} {evt : SegEvtPayload} (hs : hostInvariant s) :
    hostInvariant (handleSegmentationEvent s c en evt).1 := by
  unfold handleSegmentationEvent
  cases hfind : findSessionIdForSocket s c with
  | none => exact hs
  | some sid =>
    dsimp only
    cases hget : mapGet s.sessions sid with
    | none => exact hs
    | some sess =>
      dsimp only
      intro p hp
      rcases mem_mapSet hp with hp1 | hp1
      · exact hs p hp1
      · have hgood := hs (sid, sess) (mapGet_mem hget)
        rw [hp1]
        unfold hostMember at hgood ⊢
        cases evt.segmentationId <;> dsimp only
        · exact hgood
        · split
          · split <;> exact hgood
          · exact hgood

theorem hostInvariant_handleRequest {s : ServerState} {c : ConnId}
    {segId : String} (hs : hostInvariant s) :
    hostInvariant (handleRequestSegData s c segId).1 := by
  unfold handleRequestSegData
  cases findSessionIdForSocket s c with
  | none => exact hs
  | some sid =>
    dsimp only
    cases mapGet s.sessions sid with
    | none => exact hs
    | some sess =>
      dsimp only
      split <;> exact hs

theorem hostInvariant_handleSegData {s : ServerState} {c : ConnId}
    {segId blob : String} (hs : hostInvariant s) :
    hostInvariant (handleSegData s c segId blob).1 := by
  unfold handleSegData
  cases findSessionIdForSocket s c with
  | none => exact hs
  | some sid => exact hs

theorem hostInvariant_serverHandle {s : ServerState} {c : ConnId} {name : String}
    {p : RawPayload} (hname : name ≠ "leave-session") (hs : hostInvariant s) :
    hostInvariant (serverHandle s c name p).1 := by
  unfold serverHandle
  split
  · exact hostInvariant_handleCreate hs
  · exact hostInvariant_handleJoin hs
  · exact hostInvariant_handleDisplaySetChange hs
  · exact hostInvariant_handleSegEvent hs
  · exact hostInvariant_handleRequest hs
  · exact hostInvariant_handleSegData hs
  · exact absurd rfl hname
  · exact hostInvariant_disconnectStep hs
  · exact hs

theorem hostInvariant_run_aux :
    ∀ (evs : List InEvent) (s : ServerState), hostInvariant s →
      (∀ e ∈ evs, e.name ≠ "leave-session") →
      hostInvariant (evs.foldl serverStepState s) := by
  intro evs
  induction evs with
  | nil => intro s hs _; exact hs
  | cons e tl ih =>
    intro s hs h
    rw [List.foldl_cons]
    exact ih _ (hostInvariant_serverHandle (h e (List.mem_cons_self _ _)) hs)
      (fun q hq => h q (List.mem_cons_of_mem _ hq))

/-! ### Viewer step lemmas -/

theorem strip_modified_name :
    dropFirstStr SEGMENTATION_MODIFIED "event::" = "segmentation_modified" := by
  decide

theorem includes_modified_name :
    strIncludes SEGMENTATION_MODIFIED "segmentation_modified" = true := by
  decide

theorem viewerStep_debounced (s : ViewerState) (eventName segId : String) (now : Nat)
    (hn : strIncludes eventName "segmentation_modified" = true)
    (ht : now - s.lastSegmentationEvent < DEBOUNCE_MS) :
    viewerStep s (ViewerIn.segEvent eventName segId now) =
      (s, [ViewerOut.debounced segId now]) := by
  unfold viewerStep
  dsimp only
  rw [if_pos ⟨hn, ht⟩]

theorem viewerStep_timestamp (s : ViewerState) (eventName segId : String) (now : Nat)
    (h : ¬ (strIncludes eventName "segmentation_modified" = true ∧
        now - s.lastSegmentationEvent < DEBOUNCE_MS)) :
    (viewerStep s (ViewerIn.segEvent eventName segId now)).1.lastSegmentationEvent = now := by
  unfold viewerStep
  dsimp only
  rw [if_neg h]
  split_ifs <;> rfl

theorem viewerStep_modified_found (s : ViewerState) (segId : String) (now : Nat)
    (hseg : segId ∈ s.localSegs)
    (ht : ¬ now - s.lastSegmentationEvent < DEBOUNCE_MS) :
    viewerStep s (ViewerIn.segEvent SEGMENTATION_MODIFIED segId now) =
      ({ s with lastSegmentationEvent := now }, [ViewerOut.appliedModified segId now]) := by
  unfold viewerStep
  dsimp only
  rw [if_neg (fun hc => ht hc.2)]
  rw [strip_modified_name]
  rw [if_neg (show ¬ (("segmentation_modified" : String) = "segmentation_added") from by decide)]
  rw [if_pos (rfl : ("segmentation_modified" : String) = "segmentation_modified")]
  rw [if_pos hseg]

/-! ### Claim theorems -/

/-- Claim C1 (amended).  Along every inbound-event sequence containing no
`leave-session` event, every reachable registry state satisfies the
invariant: each registered session's host pointer is a key of its
participants map, and consequently no registered session ever has an empty
participants map (the disconnect path deletes a session it empties).  The
`leave-session` handler, however, never deletes the session: it only removes
the participant, so the session stays registered afterwards — in particular
with an empty participants map when the leaver was the last participant. -/
theorem c1_host_membership_amended :
    (∀ evs : List InEvent, (∀ e ∈ evs, e.name ≠ "leave-session") →
      hostInvariant (serverRun evs) ∧
        ∀ p ∈ (serverRun evs).sessions, p.2.participants ≠ [])
    ∧ (∀ (s : ServerState) (sid : String) (sess : Session) (c : ConnId),
        mapGet s.sessions sid = some sess →
        mapGet (handleLeave s c sid).1.sessions sid =
          some { sess with participants := mapDel sess.participants c }) := by
  constructor
  · intro evs h
    have hinv : hostInvariant (serverRun evs) := by
      unfold serverRun
      exact hostInvariant_run_aux evs initialServer
        (fun p hp => absurd hp (List.not_mem_nil p)) h
    exact ⟨hinv, fun p hp => mapHas_ne_nil (hinv p hp)⟩
  · intro s sid sess c hget
    unfold handleLeave
    rw [hget]
    exact mapGet_mapSet_self _ _ _

/-- Witness for `c1_host_membership_amended`: a concrete no-leave run
(create then host disconnect) and a concrete leave that empties a session
yet keeps it registered. -/
theorem c1_host_membership_amended_witness :
    ((∀ e ∈ ([⟨"c1", "create-session", RawPayload.createArgs "s" "alice" none⟩,
        ⟨"c1", "disconnect", RawPayload.unitArg⟩] : List InEvent),
        e.name ≠ "leave-session")
      ∧ hostInvariant (serverRun
          [⟨"c1", "create-session", RawPayload.createArgs "s" "alice" none⟩,
           ⟨"c1", "disconnect", RawPayload.unitArg⟩]))
    ∧ (mapGet (⟨[("s", ⟨"c1", [("c1", "alice")], none, []⟩)]⟩ : ServerState).sessions "s" =
        some ⟨"c1", [("c1", "alice")], none, []⟩
      ∧ mapGet (handleLeave ⟨[("s", ⟨"c1", [("c1", "alice")], none, []⟩)]⟩ "c1" "s").1.sessions "s" =
          some { Session.mk "c1" [("c1", "alice")] none [] with
                   participants := mapDel [("c1", "alice")] "c1" }) :=
  ⟨⟨by decide,
    (c1_host_membership_amended.1
      [⟨"c1", "create-session", RawPayload.createArgs "s" "alice" none⟩,
       ⟨"c1", "disconnect", RawPayload.unitArg⟩] (by decide)).1⟩,
   ⟨by decide,
    c1_host_membership_amended.2 ⟨[("s", ⟨"c1", [("c1", "alice")], none, []⟩)]⟩
      "s" ⟨"c1", [("c1", "alice")], none, []⟩ "c1" (by decide)⟩⟩

/-- Counterexample for claim C1 as stated.  After `create-session s` by `c1`,
`join-session s` by `c2` and `leave-session s` by the host `c1`, the session
is registered with non-empty participants `[(c2, bob)]` while the host
pointer `c1` is not a member; after `c2` also leaves, the participants map is
empty yet the session is still registered — so neither "host is a member
while participants is non-empty" nor "the session is removed iff
participants becomes empty" holds on the code. -/
theorem c1_counterexample :
    (mapGet (serverRun
        [⟨"c1", "create-session", RawPayload.createArgs "s" "alice" none⟩,
         ⟨"c2", "join-session", RawPayload.joinArgs "s" "bob"⟩,
         ⟨"c1", "leave-session", RawPayload.leaveArgs "s"⟩]).sessions "s" =
      some ⟨"c1", [("c2", "bob")], none, []⟩)
    ∧ mapHas [(("c2" : String), ("bob" : String))] "c1" = false
    ∧ (mapGet (serverRun
        [⟨"c1", "create-session", RawPayload.createArgs "s" "alice" none⟩,
         ⟨"c2", "join-session", RawPayload.joinArgs "s" "bob"⟩,
         ⟨"c1", "leave-session", RawPayload.leaveArgs "s"⟩,
         ⟨"c2", "leave-session", RawPayload.leaveArgs "s"⟩]).sessions "s" =
      some ⟨"c1", [], none, []⟩) := by
  decide

/-- Claim C3 is right about the intended protocol but the server code lacks
the relay: no `chat-message` handler is registered inside
`io.on('connection')` (socket.io silently drops events without a handler),
so a chat message emitted by a session member mutates nothing and produces
no emission at all — no other room member ever receives it, even though the
client registers an inbound `chat-message` listener. -/
theorem c3_chat_message_dropped :
    "chat-message" ∉ serverRegisteredEvents
    ∧ ∀ (s : ServerState) (c : ConnId) (uid un txt : String) (ts : Nat),
        serverHandle s c "chat-message" (RawPayload.chatArgs uid un txt ts) =
          (s, [], none) := by
  refine ⟨by decide, ?_⟩
  intro s c uid un txt ts
  rfl

/-- Claim C4 is right about the intended behavior but the server code lacks
the handler: the client emits `rejoin-session` on transport reconnect, yet
no `rejoin-session` handler is registered inside `io.on('connection')`, so
the event is dropped — the server state is unchanged and the reconnecting
connection is not re-added to any participants map. -/
theorem c4_rejoin_dropped :
    "rejoin-session" ∉ serverRegisteredEvents
    ∧ ∀ (s : ServerState) (c : ConnId) (sid u : String),
        serverHandle s c "rejoin-session" (RawPayload.rejoinArgs sid u) =
          (s, [], none) := by
  refine ⟨by decide, ?_⟩
  intro s c sid u
  rfl

/-- Claim C5.  Host disconnect, for a registry `pre ++ (sid, sess) :: post`
in which the disconnecting socket `c` is the session's host, a member of its
participants map, a member of no other session, and the key `sid` is not
reused by another entry: when participants remain after removing `c`, the
session stays registered with the first remaining participant (membership-map
iteration order) as new host and with exactly the post-removal participants
map (the promotion itself changes no membership, so it leaves the participant
count unchanged), and the disconnect produces exactly one `promoted-to-host`
emission, directed at the new host; when no participants remain, the session
is deleted from the registry. -/
theorem c5_host_failover (pre post : List (String × Session)) (sid : String)
    (sess : Session) (c : ConnId)
    (hpre : ∀ e ∈ pre, mapHas e.2.participants c = false)
    (hpost : ∀ e ∈ post, mapHas e.2.participants c = false)
    (hprekey : ∀ e ∈ pre, ¬ e.1 = sid)
    (hpostkey : ∀ e ∈ post, ¬ e.1 = sid)
    (hhost : sess.host = c)
    (hmem : mapHas sess.participants c = true) :
    (∀ next nm rest, mapDel sess.participants c = (next, nm) :: rest →
      mapGet (disconnectStep ⟨pre ++ (sid, sess) :: post⟩ c).1.sessions sid =
        some { host := next, participants := (next, nm) :: rest,
               lastViewport := sess.lastViewport, lastSegState := sess.lastSegState }
      ∧ (disconnectStep ⟨pre ++ (sid, sess) :: post⟩ c).2.filter isPromoted =
          [⟨Target.conn next, EmitBody.promotedToHost⟩])
    ∧ (mapDel sess.participants c = [] →
      mapGet (disconnectStep ⟨pre ++ (sid, sess) :: post⟩ c).1.sessions sid = none) := by
  have heq : disconnectStep ⟨pre ++ (sid, sess) :: post⟩ c =
      disconnectOne c (⟨pre ++ (sid, sess) :: post⟩, []) (sid, sess) := by
    unfold disconnectStep
    dsimp only
    rw [List.foldl_append, foldl_disconnectOne_skip c pre _ hpre, List.foldl_cons,
      foldl_disconnectOne_skip c post _ hpost]
  constructor
  · intro next nm rest hdel
    rw [heq]
    dsimp only [disconnectOne]
    rw [if_pos hmem, if_pos hhost, hdel]
    dsimp only [List.head?]
    constructor
    · dsimp only
      rw [mapSet_mapSet]
      exact mapGet_mapSet_self _ _ _
    · dsimp only [broadcastUsers]
      rw [mapGet_mapSet_self]
      dsimp only [isPromoted, List.filter]
  · intro hdel
    rw [heq]
    dsimp only [disconnectOne]
    rw [if_pos hmem, if_pos hhost, hdel]
    dsimp only [List.head?]
    rw [mapDel_mapSet, mapDel_decomp sess hprekey, mapGet_append_keys hprekey]
    exact mapGet_none_of_keys hpostkey

/-- Witness for `c5_host_failover`: a two-participant session whose host
disconnects; the remaining viewer is promoted and notified. -/
theorem c5_host_failover_witness :
    mapDel [(("h" : String), ("alice" : String)), ("v", "bob")] "h" = [("v", "bob")]
    ∧ (mapGet (disconnectStep ⟨[("s", ⟨"h", [("h", "alice"), ("v", "bob")], none, []⟩)]⟩
          "h").1.sessions "s" = some ⟨"v", [("v", "bob")], none, []⟩
      ∧ (disconnectStep ⟨[("s", ⟨"h", [("h", "alice"), ("v", "bob")], none, []⟩)]⟩
          "h").2.filter isPromoted = [⟨Target.conn "v", EmitBody.promotedToHost⟩]) :=
  ⟨by decide,
   (c5_host_failover [] [] "s" ⟨"h", [("h", "alice"), ("v", "bob")], none, []⟩ "h"
      (by decide) (by decide) (by decide) (by decide) (by decide) (by decide)).1
     "v" "bob" [] (by decide)⟩

/-- Claim C6 (amended).  A `create-session` whose id already exists does not
fail: the handler does no existence check, acknowledges success (the ack type
carries no conflict outcome at all), and silently replaces the registry
entry with a fresh session whose host and sole participant is the caller. -/
theorem c6_create_overwrites_amended (s : ServerState) (c : ConnId)
    (sid u : String) (segId : Option String)
    (h : mapHas s.sessions sid = true) :
    (serverHandle s c "create-session" (RawPayload.createArgs sid u segId)).2.2 =
      some (Ack.createOk sid)
    ∧ (mapGet (serverHandle s c "create-session"
          (RawPayload.createArgs sid u segId)).1.sessions sid).map Session.host = some c
    ∧ (mapGet (serverHandle s c "create-session"
          (RawPayload.createArgs sid u segId)).1.sessions sid).map Session.participants =
        some [(c, orDefault u "host")] := by
  have e1 : serverHandle s c "create-session" (RawPayload.createArgs sid u segId) =
      handleCreate s c sid u segId := rfl
  rw [e1]
  unfold handleCreate
  refine ⟨rfl, ?_, ?_⟩ <;> · dsimp only; rw [mapGet_mapSet_self]; rfl

/-- Witness for `c6_create_overwrites_amended` at a registry already holding
the session id. -/
theorem c6_create_overwrites_amended_witness :
    mapHas (⟨[("s", ⟨"c1", [("c1", "alice")], none, []⟩)]⟩ : ServerState).sessions "s" = true
    ∧ ((serverHandle ⟨[("s", ⟨"c1", [("c1", "alice")], none, []⟩)]⟩ "c2" "create-session"
          (RawPayload.createArgs "s" "bob" none)).2.2 = some (Ack.createOk "s")
      ∧ (mapGet (serverHandle ⟨[("s", ⟨"c1", [("c1", "alice")], none, []⟩)]⟩ "c2"
            "create-session" (RawPayload.createArgs "s" "bob" none)).1.sessions "s").map
          Session.host = some "c2"
      ∧ (mapGet (serverHandle ⟨[("s", ⟨"c1", [("c1", "alice")], none, []⟩)]⟩ "c2"
            "create-session" (RawPayload.createArgs "s" "bob" none)).1.sessions "s").map
          Session.participants = some [("c2", orDefault "bob" "host")]) :=
  ⟨by decide,
   c6_create_overwrites_amended ⟨[("s", ⟨"c1", [("c1", "alice")], none, []⟩)]⟩ "c2"
     "s" "bob" none (by decide)⟩

/-- Counterexample for claim C6 as stated: creating `s` as `c1` and then
creating `s` again as `c2` yields a success acknowledgement (not a
conflict) and replaces the existing session — its host, participants and
cached state are all reset — so the second create neither fails nor leaves
the existing session unchanged. -/
theorem c6_counterexample :
    mapGet (serverRun
        [⟨"c1", "create-session", RawPayload.createArgs "s" "alice" (some "seg-1")⟩]).sessions
        "s" = some ⟨"c1", [("c1", "alice")], none, [("seg-1", SegCache.createdBy "alice")]⟩
    ∧ (serverHandle (serverRun
          [⟨"c1", "create-session", RawPayload.createArgs "s" "alice" (some "seg-1")⟩])
          "c2" "create-session" (RawPayload.createArgs "s" "bob" none)).2.2 =
        some (Ack.createOk "s")
    ∧ mapGet (serverRun
        [⟨"c1", "create-session", RawPayload.createArgs "s" "alice" (some "seg-1")⟩,
         ⟨"c2", "create-session", RawPayload.createArgs "s" "bob" none⟩]).sessions "s" =
        some ⟨"c2", [("c2", "bob")], none, []⟩ := by
  decide

/-- Claim C7.  A `join-session` naming an id absent from the registry
returns the error acknowledgement and performs no mutation at all: the
handler result carries the input state unchanged (hence every session's
participants map, host pointer and cached state are identical) and no
emission. -/
theorem c7_join_unknown_id (s : ServerState) (c : ConnId) (sid u : String)
    (h : mapGet s.sessions sid = none) :
    serverHandle s c "join-session" (RawPayload.joinArgs sid u) =
      (s, [], some (Ack.joinErr "Session not found")) := by
  have e1 : serverHandle s c "join-session" (RawPayload.joinArgs sid u) =
      handleJoin s c sid u := rfl
  rw [e1]
  unfold handleJoin
  rw [h]

/-- Witness for `c7_join_unknown_id` on a registry holding one session. -/
theorem c7_join_unknown_id_witness :
    mapGet (⟨[("s", ⟨"c1", [("c1", "alice")], none, []⟩)]⟩ : ServerState).sessions "zz" = none
    ∧ serverHandle (⟨[("s", ⟨"c1", [("c1", "alice")], none, []⟩)]⟩ : ServerState) "c2"
        "join-session" (RawPayload.joinArgs "zz" "bob") =
      (⟨[("s", ⟨"c1", [("c1", "alice")], none, []⟩)]⟩, [],
       some (Ack.joinErr "Session not found")) :=
  ⟨by decide,
   c7_join_unknown_id ⟨[("s", ⟨"c1", [("c1", "alice")], none, []⟩)]⟩ "c2" "zz" "bob"
     (by decide)⟩

/-- Claim C2 is right about the intended behavior but the code defeats its
own guard: the joiner effect registers its handlers once (dependency array
`[servicesManager]`), so the `pendingSegmentationRequests.has` test inside
them reads the set captured at mount — the initial empty set — while the
functional `setPendingSegmentationRequests` updates only reach later renders.
Two `segmentation_data_modified` triggers for the same id with no
`segmentationData` response in between therefore emit two
`requestSegmentationData` messages (the claim requires exactly one), even
though the live pending set holds the id just once. -/
theorem c2_duplicate_requests :
    (viewerRunFrom (initialViewer [])
        [ViewerIn.segEvent SEGMENTATION_DATA_MODIFIED "seg-1" 1000,
         ViewerIn.segEvent SEGMENTATION_DATA_MODIFIED "seg-1" 1600]).2.filter isRequestOut =
      [ViewerOut.requestSegmentationData "seg-1", ViewerOut.requestSegmentationData "seg-1"]
    ∧ (viewerRunFrom (initialViewer [])
        [ViewerIn.segEvent SEGMENTATION_DATA_MODIFIED "seg-1" 1000,
         ViewerIn.segEvent SEGMENTATION_DATA_MODIFIED "seg-1" 1600]).1.pendingLive =
      ["seg-1"] := by
  decide

/-- Claim C8 (amended).  The 500 ms window is an early-return throttle, not a
trailing debounce: two `segmentation_modified` events for the same id 100 ms
apart collapse to exactly one applied update, but the applied one is the
first (earliest) of the two — the later event is discarded; two events
600 ms apart are both applied. -/
theorem c8_throttle_keeps_first_amended (s : ViewerState) (segId : String) (t1 : Nat)
    (hseg : segId ∈ s.localSegs)
    (ht : s.lastSegmentationEvent + DEBOUNCE_MS ≤ t1) :
    ((viewerRunFrom s
        [ViewerIn.segEvent SEGMENTATION_MODIFIED segId t1,
         ViewerIn.segEvent SEGMENTATION_MODIFIED segId (t1 + 100)]).2.filter
        isAppliedModified = [ViewerOut.appliedModified segId t1])
    ∧ ((viewerRunFrom s
        [ViewerIn.segEvent SEGMENTATION_MODIFIED segId t1,
         ViewerIn.segEvent SEGMENTATION_MODIFIED segId (t1 + 600)]).2.filter
        isAppliedModified =
      [ViewerOut.appliedModified segId t1, ViewerOut.appliedModified segId (t1 + 600)]) := by
  have hd : DEBOUNCE_MS = 500 := rfl
  have h1 : viewerStep s (ViewerIn.segEvent SEGMENTATION_MODIFIED segId t1) =
      ({ s with lastSegmentationEvent := t1 }, [ViewerOut.appliedModified segId t1]) :=
    viewerStep_modified_found s segId t1 hseg (by omega)
  have h2 : viewerStep { s with lastSegmentationEvent := t1 }
      (ViewerIn.segEvent SEGMENTATION_MODIFIED segId (t1 + 100)) =
      ({ s with lastSegmentationEvent := t1 },
       [ViewerOut.debounced segId (t1 + 100)]) :=
    viewerStep_debounced _ _ _ _ includes_modified_name (by simp; omega)
  have h3 : viewerStep { s with lastSegmentationEvent := t1 }
      (ViewerIn.segEvent SEGMENTATION_MODIFIED segId (t1 + 600)) =
      ({ { s with lastSegmentationEvent := t1 } with lastSegmentationEvent := t1 + 600 },
       [ViewerOut.appliedModified segId (t1 + 600)]) :=
    viewerStep_modified_found _ segId _ hseg (by simp; omega)
  constructor
  · show ((viewerRunFrom s _).2.filter isAppliedModified = _)
    unfold viewerRunFrom
    rw [List.foldl_cons, List.foldl_cons, List.foldl_nil]
    dsimp only
    rw [h1]
    dsimp only
    rw [h2]
    dsimp only [isAppliedModified, List.filter]
  · show ((viewerRunFrom s _).2.filter isAppliedModified = _)
    unfold viewerRunFrom
    rw [List.foldl_cons, List.foldl_cons, List.foldl_nil]
    dsimp only
    rw [h1]
    dsimp only
    rw [h3]
    dsimp only [isAppliedModified, List.filter]

/-- Witness for `c8_throttle_keeps_first_amended` on a fresh joiner that
knows segmentation `A`, with the first event at time 1000. -/
theorem c8_throttle_keeps_first_amended_witness :
    (("A" : String) ∈ (initialViewer ["A"]).localSegs
      ∧ (initialViewer ["A"]).lastSegmentationEvent + DEBOUNCE_MS ≤ 1000)
    ∧ ((viewerRunFrom (initialViewer ["A"])
        [ViewerIn.segEvent SEGMENTATION_MODIFIED "A" 1000,
         ViewerIn.segEvent SEGMENTATION_MODIFIED "A" (1000 + 100)]).2.filter
        isAppliedModified = [ViewerOut.appliedModified "A" 1000]) :=
  ⟨⟨by decide, by decide⟩,
   (c8_throttle_keeps_first_amended (initialViewer ["A"]) "A" 1000 (by decide)
     (by decide)).1⟩

/-- Counterexample for claim C8 as stated: two `segmentation_modified`
events for `A` at times 1000 and 1100 (100 ms apart) produce exactly one
applied update, but it is the earlier one — the most recent of the two is
the event that gets discarded by the window, not the one applied. -/
theorem c8_counterexample :
    (viewerRunFrom (initialViewer ["A"])
        [ViewerIn.segEvent SEGMENTATION_MODIFIED "A" 1000,
         ViewerIn.segEvent SEGMENTATION_MODIFIED "A" 1100]).2 =
      [ViewerOut.appliedModified "A" 1000, ViewerOut.debounced "A" 1100] := by
  decide

/-- Claim C9 (amended).  `join-session` adds the joining connection to the
target session's participants map without touching any other session, so a
connection already belonging to another session becomes a member of two
sessions at once — the claimed one-session-per-connection invariant does not
hold on the code. -/
theorem c9_join_keeps_other_memberships (s : ServerState) (c : ConnId)
    (sid u : String) (sess : Session) (hget : mapGet s.sessions sid = some sess) :
    ((mapGet (handleJoin s c sid u).1.sessions sid).map
        (fun ss => mapHas ss.participants c) = some true)
    ∧ ∀ sid2, sid2 ≠ sid →
        mapGet (handleJoin s c sid u).1.sessions sid2 = mapGet s.sessions sid2 := by
  unfold handleJoin
  rw [hget]
  dsimp only
  constructor
  · rw [mapGet_mapSet_self]
    dsimp only [Option.map]
    rw [mapHas_mapSet_self]
  · intro sid2 hne
    exact mapGet_mapSet_ne _ hne

/-- Witness for `c9_join_keeps_other_memberships`: `c1` (already sole member
of `s1`) joins `s2`. -/
theorem c9_join_keeps_other_memberships_witness :
    mapGet (⟨[("s1", ⟨"c1", [("c1", "alice")], none, []⟩),
              ("s2", ⟨"c2", [("c2", "bob")], none, []⟩)]⟩ : ServerState).sessions "s2" =
      some ⟨"c2", [("c2", "bob")], none, []⟩
    ∧ (((mapGet (handleJoin ⟨[("s1", ⟨"c1", [("c1", "alice")], none, []⟩),
              ("s2", ⟨"c2", [("c2", "bob")], none, []⟩)]⟩ "c1" "s2" "alice").1.sessions
            "s2").map (fun ss => mapHas ss.participants "c1") = some true)
      ∧ ∀ sid2, sid2 ≠ "s2" →
          mapGet (handleJoin ⟨[("s1", ⟨"c1", [("c1", "alice")], none, []⟩),
              ("s2", ⟨"c2", [("c2", "bob")], none, []⟩)]⟩ "c1" "s2" "alice").1.sessions
            sid2 =
          mapGet (⟨[("s1", ⟨"c1", [("c1", "alice")], none, []⟩),
              ("s2", ⟨"c2", [("c2", "bob")], none, []⟩)]⟩ : ServerState).sessions sid2) :=
  ⟨by decide,
   c9_join_keeps_other_memberships
     ⟨[("s1", ⟨"c1", [("c1", "alice")], none, []⟩),
       ("s2", ⟨"c2", [("c2", "bob")], none, []⟩)]⟩ "c1" "s2" "alice"
     ⟨"c2", [("c2", "bob")], none, []⟩ (by decide)⟩

/-- Counterexample for claim C9 as stated: from the empty registry, `c1`
creates `s1`, `c2` creates `s2`, then `c1` joins `s2`; in the reached state
`c1` is a member of the participants maps of both `s1` and `s2` (two
different sessions), and the reverse lookup resolves `c1` to the first
matching session in registry order, `s1`. -/
theorem c9_counterexample :
    ((mapGet (serverRun
        [⟨"c1", "create-session", RawPayload.createArgs "s1" "alice" none⟩,
         ⟨"c2", "create-session", RawPayload.createArgs "s2" "bob" none⟩,
         ⟨"c1", "join-session", RawPayload.joinArgs "s2" "alice"⟩]).sessions "s1").map
        (fun ss => mapHas ss.participants "c1") = some true)
    ∧ ((mapGet (serverRun
        [⟨"c1", "create-session", RawPayload.createArgs "s1" "alice" none⟩,
         ⟨"c2", "create-session", RawPayload.createArgs "s2" "bob" none⟩,
         ⟨"c1", "join-session", RawPayload.joinArgs "s2" "alice"⟩]).sessions "s2").map
        (fun ss => mapHas ss.participants "c1") = some true)
    ∧ ("s1" : String) ≠ "s2"
    ∧ findSessionIdForSocket (serverRun
        [⟨"c1", "create-session", RawPayload.createArgs "s1" "alice" none⟩,
         ⟨"c2", "create-session", RawPayload.createArgs "s2" "bob" none⟩,
         ⟨"c1", "join-session", RawPayload.joinArgs "s2" "alice"⟩]) "c1" = some "s1" := by
  decide

/-- Claim C10 (amended).  The joiner's debounce timestamp is one variable
shared across all segmentation ids and event types, but it is updated only
by events that are not themselves discarded by the guard: a
`segmentation_modified` event arriving within 500 ms of the last
non-discarded segmentation event — of any type and any id — is discarded
without being applied, and every non-discarded event (of any type and any
id) overwrites the shared timestamp with its own arrival time. -/
theorem c10_shared_throttle_amended (s : ViewerState) (eventName segId : String)
    (now : Nat) :
    (strIncludes eventName "segmentation_modified" = true →
      now - s.lastSegmentationEvent < DEBOUNCE_MS →
      viewerStep s (ViewerIn.segEvent eventName segId now) =
        (s, [ViewerOut.debounced segId now]))
    ∧ (¬ (strIncludes eventName "segmentation_modified" = true ∧
          now - s.lastSegmentationEvent < DEBOUNCE_MS) →
      (viewerStep s (ViewerIn.segEvent eventName segId now)).1.lastSegmentationEvent =
        now) :=
  ⟨fun hn ht => viewerStep_debounced s eventName segId now hn ht,
   fun h => viewerStep_timestamp s eventName segId now h⟩

/-- Witness for `c10_shared_throttle_amended`: a modified event 100 ms after
the mount timestamp is discarded; an added event is never discarded and
overwrites the shared timestamp. -/
theorem c10_shared_throttle_amended_witness :
    (strIncludes SEGMENTATION_MODIFIED "segmentation_modified" = true
      ∧ 100 - (initialViewer []).lastSegmentationEvent < DEBOUNCE_MS
      ∧ viewerStep (initialViewer []) (ViewerIn.segEvent SEGMENTATION_MODIFIED "A" 100) =
          (initialViewer [], [ViewerOut.debounced "A" 100]))
    ∧ (¬ (strIncludes SEGMENTATION_ADDED "segmentation_modified" = true
          ∧ 1000 - (initialViewer []).lastSegmentationEvent < DEBOUNCE_MS)
      ∧ (viewerStep (initialViewer [])
          (ViewerIn.segEvent SEGMENTATION_ADDED "A" 1000)).1.lastSegmentationEvent = 1000) :=
  ⟨⟨by decide, by decide,
    (c10_shared_throttle_amended (initialViewer []) SEGMENTATION_MODIFIED "A" 100).1
      (by decide) (by decide)⟩,
   ⟨by decide,
    (c10_shared_throttle_amended (initialViewer []) SEGMENTATION_ADDED "A" 1000).2
      (by decide)⟩⟩

/-- Counterexample for claim C10 as stated: with an added event at 1000, a
modified event for `A` at 1400 (discarded, so the shared timestamp is *not*
updated by it) and a modified event for `B` at 1700, the `B` event arrives
only 300 ms after the prior segmentation event yet is applied — so neither
"updated by every incoming segmentation event" nor "a modified event less
than 500 ms after any prior segmentation event is discarded" holds. -/
theorem c10_counterexample :
    ((viewerRunFrom (initialViewer ["A", "B"])
        [ViewerIn.segEvent SEGMENTATION_ADDED "X" 1000,
         ViewerIn.segEvent SEGMENTATION_MODIFIED "A" 1400,
         ViewerIn.segEvent SEGMENTATION_MODIFIED "B" 1700]).2 =
      [ViewerOut.appliedAdded "X" 1000, ViewerOut.requestSegmentationData "X",
       ViewerOut.debounced "A" 1400, ViewerOut.appliedModified "B" 1700])
    ∧ 1700 - 1400 < DEBOUNCE_MS := by
  decide

end OhifCollab
